import Mathlib

/-!
Shallow embedding of `src/request.rs` of sbstp/tinyhttp, and proofs about the
redirect-following request engine it implements. External collaborators (the
`url` crate, the `http` header map, the transport, TLS and the response
parser) are modelled as oracles, following the interface contracts the spec
gives for them; everything else is translated directly from `request.rs`.
-/

set_option autoImplicit false

namespace TinyHttp

/-- Text-encoding tags of the external `encoding_rs` collaborator, abstracted
to their names; `request.rs` only ever forwards them to the response parser. -/
abbrev Encoding := String

/-- Header values of the external `http` crate: raw bytes. -/
abbrev HeaderValue := List Nat

/-- A header value holding the bytes of an ASCII string. -/
def HeaderValue.ofString (s : String) : HeaderValue := s.data.map Char.toNat

/-- The case-insensitive multi-valued header map of the external `http` crate,
as an association list whose keys are stored lower-cased (iteration order of
the real map is unspecified; the list order stands in for it). -/
abbrev HeaderMap := List (String × HeaderValue)

/-- Modelled from the spec: header names are case-insensitive, so the map
normalises them to lower case on entry (character by character, as the `http`
crate's `HeaderName` does for ASCII names). -/
def lowerName (s : String) : String := String.mk (s.data.map Char.toLower)

/-- Modelled from the spec: `insert` of the header-map service replaces all
existing values for a name with the single new value. -/
def headerInsert (m : HeaderMap) (name : String) (v : HeaderValue) : HeaderMap :=
  m.filter (fun kv => kv.1 != lowerName name) ++ [(lowerName name, v)]

/-- Modelled from the spec: lookup of the first value stored for a name
(`HeaderMap::get`). -/
def headerGet (m : HeaderMap) (name : String) : Option HeaderValue :=
  (m.find? (fun kv => kv.1 == lowerName name)).map (fun kv => kv.2)

/-- The visible-ASCII test of the `http` crate's `HeaderValue::to_str`. -/
def isVisibleAscii (b : Nat) : Bool := (32 ≤ b && b < 127) || b == 9

/-- Modelled from the spec: the fallible decoding of a header value to text
(`HeaderValue::to_str`), which fails on any non-visible-ASCII byte. -/
def headerValueToStr (v : HeaderValue) : Option String :=
  if v.all isVisibleAscii then some (String.mk (v.map Char.ofNat)) else none

/-- Rendering of a header value's raw bytes onto the wire
(`writer.write_all(value.as_bytes())`). -/
def renderValue (v : HeaderValue) : String := String.mk (v.map Char.ofNat)

/-- URLs of the external `url` crate, abstracted to the accessors `request.rs`
uses: scheme, optional host, optional explicit port, optional domain (a host
that is a registrable domain rather than an IP address), path and optional
query. -/
structure Url where
  scheme : String
  host : Option String
  port : Option Nat
  domain : Option String
  path : String
  query : Option String
deriving DecidableEq

/-- The well-known default ports of the `url` crate. -/
def knownDefaultPort : String → Option Nat
  | "ftp" => some 21
  | "http" => some 80
  | "https" => some 443
  | "ws" => some 80
  | "wss" => some 443
  | _ => none

/-- Model of `Url::port_or_known_default`: the explicit port if any, else the scheme's
well-known default. -/
def Url.port_or_known_default (u : Url) : Option Nat :=
  match u.port with
  | some p => some p
  | none => knownDefaultPort u.scheme

/-- The `url::ParseError` distinction `request.rs` depends on:
relative-URL-without-base versus every other parse failure. -/
inductive UrlParseError where
  | relativeUrlWithoutBase
  | other
deriving DecidableEq

/-- Modelled from the spec: the error kinds of this crate's `HttpError`
(`src/error.rs` is not among the visible sources). Invalid-URL and
invalid-response errors carry a reason string; transport and TLS failures are
wrapped unchanged. -/
inductive HttpError where
  | InvalidUrl (reason : String)
  | InvalidResponse (reason : String)
  | Io (reason : String)
  | Tls (reason : String)
deriving DecidableEq

/-- Modelled from the spec: the transport stream of `src/tls.rs` (not among
the visible sources), either a plaintext or an encrypted stream to a host and
port. -/
inductive MaybeTls where
  | plain (host : String) (port : Nat)
  | tls (host : String) (port : Nat)
deriving DecidableEq

/-- The request descriptor of `request.rs`. The HTTP method is abstracted to
its name, exactly as `Method::as_str` renders it onto the wire. -/
structure Request where
  url : Url
  method : String
  headers : HeaderMap
  redirect : Bool
  default_encoding : Option Encoding
deriving DecidableEq

/-- Outcome of the constructor: `Request::new` either yields a request or
aborts the whole process (`Url::parse(base_url).expect("invalid url")`). -/
inductive NewResult where
  | ok (req : Request)
  | panicked (msg : String)
deriving DecidableEq

/-- Oracles for the external collaborators `request.rs` drives: URL parsing
and joining (the `url` crate), the network side of the transport connector
(per hop: success, or a wrapped failure), and the response parser (per hop,
given the default encoding). The hop index threads the nondeterminism of the
outside world through an otherwise pure model. -/
structure Env where
  parse : String → Except UrlParseError Url
  join : Url → String → Option Url
  netConnect : Nat → String → Nat → Option HttpError
  netConnectTls : Nat → String → Nat → Option HttpError
  response : Nat → Option Encoding → Except HttpError (Nat × HeaderMap × Nat)

/-- Model of `Request::new`: parse the base URL — `.expect("invalid url")` aborts the
process on a parse failure — and fill in the field defaults. -/
def Request.new (env : Env) (base_url : String) : NewResult :=
  match env.parse base_url with
  | .ok url =>
    .ok { url := url, method := "GET", headers := [], redirect := true,
          default_encoding := none }
  | .error _ => .panicked "invalid url"

/-- Model of `Request::connect`: the host check, then the port check, then the dispatch
on the scheme; "http" opens a plaintext stream and "https" an encrypted one to
the same host and port. -/
def Request.connect (env : Env) (hop : Nat) (url : Url) : Except HttpError MaybeTls :=
  match url.host with
  | none => .error (.InvalidUrl "url has no host")
  | some host =>
    match url.port_or_known_default with
    | none => .error (.InvalidUrl "url has no port")
    | some port =>
      match url.scheme with
      | "http" =>
        match env.netConnect hop host port with
        | some e => .error e
        | none => .ok (.plain host port)
      | "https" =>
        match env.netConnectTls hop host port with
        | some e => .error e
        | none => .ok (.tls host port)
      | _ => .error (.InvalidUrl "url contains unsupported scheme")

/-- Model of `Request::base_redirect_url`: parse the location as an absolute URL; on a
relative-URL-without-base failure join it against the previous hop's URL (a
join failure is an invalid-URL error); any other parse failure is the
invalid-redirection-url error. -/
def base_redirect_url (env : Env) (location : String) (previous_url : Url) :
    Except HttpError Url :=
  match env.parse location with
  | .ok url => .ok url
  | .error .relativeUrlWithoutBase =>
    match env.join previous_url location with
    | some joined => .ok joined
    | none => .error (.InvalidUrl "cannot join location with new url")
  | .error .other => .error (.InvalidUrl "invalid redirection url")

/-- Model of `Request::write_request`: render the request line (with the query segment
whenever the URL carries a query component), force-insert `connection: close`
and — when the URL has a domain — `host`, into the descriptor's own header map
(the Rust method mutates `self.headers` in place; the returned `Request`
models that mutated receiver), then write every header as a
name-colon-space-value-CRLF line and a terminating CRLF. The returned string
is everything the buffered writer flushes. `Version::HTTP_11` debug-renders
as the text between the method line's last space and the CRLF. -/
def writeRequest (req : Request) (url : Url) : Request × String :=
  let line :=
    match url.query with
    | some query => req.method ++ " " ++ url.path ++ "?" ++ query ++ " " ++ "HTTP/1.1" ++ "\r\n"
    | none => req.method ++ " " ++ url.path ++ " " ++ "HTTP/1.1" ++ "\r\n"
  let headers := headerInsert req.headers "connection" (HeaderValue.ofString "close")
  let headers :=
    match url.domain with
    | some domain => headerInsert headers "host" (HeaderValue.ofString domain)
    | none => headers
  let wire := headers.foldl (fun acc kv => acc ++ kv.1 ++ ": " ++ renderValue kv.2 ++ "\r\n") line
  ({ req with headers := headers }, wire ++ "\r\n")

/-- Model of `StatusCode::is_redirection`: the 3xx redirection class. -/
def isRedirection (status : Nat) : Bool := 300 ≤ status && status < 400

/-- Observable outcome of the redirect loop: a returned (status, headers,
body-reader) triple, a returned error, or exhaustion of the fuel bounding our
model of the source's unbounded `loop`. -/
inductive SendOutcome where
  | done (status : Nat) (headers : HeaderMap) (body : Nat)
  | failed (e : HttpError)
  | fuelOut
deriving DecidableEq

/-- The body of `Request::send`'s `loop`, fuelled: connect, serialize, parse
the response, then either return the parser's triple (redirects disabled or a
non-3xx status), fail on a missing or undecodable or unresolvable `Location`,
or recurse at the resolved URL with the mutated request. Besides the outcome
it returns the number of connection attempts made and the request bytes
flushed at each hop. -/
def sendLoop (env : Env) : Nat → Request → Url → Nat → SendOutcome × Nat × List String
  | 0, _, _, _ => (.fuelOut, 0, [])
  | fuel+1, req, url, hop =>
    match Request.connect env hop url with
    | .error e => (.failed e, 1, [])
    | .ok _sock =>
      match env.response hop (writeRequest req url).1.default_encoding with
      | .error e => (.failed e, 1, [(writeRequest req url).2])
      | .ok (status, headers, resp) =>
        if !(writeRequest req url).1.redirect || !isRedirection status then
          (.done status headers resp, 1, [(writeRequest req url).2])
        else
          match headerGet headers "location" with
          | none => (.failed (.InvalidResponse "redirect has no location header"), 1,
                     [(writeRequest req url).2])
          | some locv =>
            match headerValueToStr locv with
            | none => (.failed (.InvalidResponse "location to str error"), 1,
                       [(writeRequest req url).2])
            | some location =>
              match base_redirect_url env location url with
              | .error e => (.failed e, 1, [(writeRequest req url).2])
              | .ok new_url =>
                match sendLoop env fuel (writeRequest req url).1 new_url (hop+1) with
                | (o, n, ws) => (o, n + 1, (writeRequest req url).2 :: ws)

/-- Model of `Request::send`: run the loop starting from the request's own URL. -/
def Request.send (env : Env) (req : Request) (fuel : Nat) :
    SendOutcome × Nat × List String :=
  sendLoop env fuel req req.url 0

/-- Spec-side view: the optional query segment of the request target. -/
def queryPart (u : Url) : String :=
  match u.query with
  | some q => "?" ++ q
  | none => ""

/-- Spec-side view of the request line `write_request` emits. -/
def requestLine (req : Request) (url : Url) : String :=
  req.method ++ " " ++ url.path ++ queryPart url ++ " " ++ "HTTP/1.1" ++ "\r\n"

/-- Spec-side view of the mutation `write_request` performs on the header
map: `connection: close` always, then `host` when the URL has a domain. -/
def forcedHeaders (m : HeaderMap) (url : Url) : HeaderMap :=
  match url.domain with
  | some domain =>
    headerInsert (headerInsert m "connection" (HeaderValue.ofString "close"))
      "host" (HeaderValue.ofString domain)
  | none => headerInsert m "connection" (HeaderValue.ofString "close")

/-- Spec-side view of the header block: one name-colon-space-value-CRLF line
per entry of the map. -/
def renderHeaders : HeaderMap → String
  | [] => ""
  | kv :: rest => kv.1 ++ ": " ++ renderValue kv.2 ++ "\r\n" ++ renderHeaders rest

/-- The relation `Reaches env req url hop k req2 url2` says: starting the loop body with
descriptor `req` at `url` on hop number `hop`, the next `k` hops all connect,
receive a 3xx response while redirect-following is on, and resolve their
`Location` header, leaving the loop with descriptor `req2` at `url2` on hop
`hop + k`. This is the spec-level description of an uninterrupted chain of
`k` successful redirect hops. -/
inductive Reaches (env : Env) : Request → Url → Nat → Nat → Request → Url → Prop where
  | refl (req : Request) (url : Url) (hop : Nat) : Reaches env req url hop 0 req url
  | step {req : Request} {url : Url} {hop k : Nat} {req2 : Request} {url2 : Url}
      {sock : MaybeTls} {status : Nat} {headers : HeaderMap} {resp : Nat}
      {locv : HeaderValue} {location : String} {new_url : Url} :
      Request.connect env hop url = .ok sock →
      env.response hop (writeRequest req url).1.default_encoding = .ok (status, headers, resp) →
      (!(writeRequest req url).1.redirect || !isRedirection status) = false →
      headerGet headers "location" = some locv →
      headerValueToStr locv = some location →
      base_redirect_url env location url = .ok new_url →
      Reaches env (writeRequest req url).1 new_url (hop+1) k req2 url2 →
      Reaches env req url hop (k+1) req2 url2

/-- Fixture: a plain http URL at host `a`, root path, default port. -/
def urlA : Url :=
  { scheme := "http", host := some "a", port := none, domain := some "a",
    path := "/", query := none }

/-- Fixture: `urlA` at path `/x`. -/
def urlAx : Url := { urlA with path := "/x" }

/-- Fixture: `urlA` at path `/y`. -/
def urlAy : Url := { urlA with path := "/y" }

/-- Fixture: a plain http URL at host `b`. -/
def urlB : Url :=
  { scheme := "http", host := some "b", port := none, domain := some "b",
    path := "/", query := none }

/-- Fixture: `urlB` at path `/y`. -/
def urlBy : Url := { urlB with path := "/y" }

/-- Fixture: a URL with no host at all. -/
def urlNoHost : Url :=
  { scheme := "gopher", host := none, port := none, domain := none,
    path := "/", query := none }

/-- Fixture: a URL with a host but neither an explicit nor a default port. -/
def urlNoPort : Url :=
  { scheme := "gopher", host := some "a", port := none, domain := some "a",
    path := "/", query := none }

/-- Fixture: an ftp URL; its scheme has a known default port but is not
dispatchable. -/
def urlFtp : Url :=
  { scheme := "ftp", host := some "a", port := none, domain := some "a",
    path := "/", query := none }

/-- Fixture: an https URL with an explicit port. -/
def urlHttpsB : Url :=
  { scheme := "https", host := some "b", port := some 8443, domain := some "b",
    path := "/", query := none }

/-- Fixture: a URL carrying a present but empty query component, as
`Url::parse` yields for a URL text ending in a bare question mark. -/
def urlEmptyQuery : Url :=
  { scheme := "http", host := some "a", port := none, domain := some "a",
    path := "/x", query := some "" }

/-- Fixture: a URL whose host is an IP address, hence has no domain. -/
def urlIp : Url :=
  { scheme := "http", host := some "10.0.0.1", port := none, domain := none,
    path := "/", query := none }

/-- Fixture: a fresh GET request at `urlA`. -/
def reqA : Request :=
  { url := urlA, method := "GET", headers := [], redirect := true,
    default_encoding := none }

/-- A base environment: URL parsing always fails, the network always accepts,
every response is a bare 200. -/
def envBase : Env :=
  { parse := fun _ => .error .other
    join := fun _ _ => none
    netConnect := fun _ _ _ => none
    netConnectTls := fun _ _ _ => none
    response := fun _ _ => .ok (200, [], 0) }

/-- Environment for a two-redirect chain: hop 0 redirects absolutely to `b`,
hop 1 redirects relatively to `/y`, hop 2 is terminal. -/
def envChain : Env :=
  { envBase with
    parse := fun s =>
      if s = "http://b/" then .ok urlB
      else if s = "/y" then .error .relativeUrlWithoutBase
      else .error .other
    join := fun u s => if u = urlB ∧ s = "/y" then some urlBy else none
    response := fun hop _ =>
      if hop = 0 then .ok (301, [("location", HeaderValue.ofString "http://b/")], 0)
      else if hop = 1 then .ok (301, [("location", HeaderValue.ofString "/y")], 0)
      else .ok (200, [], 0) }

/-- Environment of two URLs redirecting to each other: even hops are at `a`
and point to `b`, odd hops are at `b` and point to `a`. -/
def envCycle : Env :=
  { envBase with
    parse := fun s =>
      if s = "http://a/" then .ok urlA
      else if s = "http://b/" then .ok urlB
      else .error .other
    response := fun hop _ =>
      .ok (302,
        [("location",
          HeaderValue.ofString (if hop % 2 = 0 then "http://b/" else "http://a/"))], 0) }

/-- Environment for redirect-target resolution: an absolute location, a
relative one joinable against `urlAx`, and everything else malformed; hop 0
responds with a relative redirect. -/
def envResolve : Env :=
  { envBase with
    parse := fun s =>
      if s = "http://b/" then .ok urlB
      else if s = "/rel" then .error .relativeUrlWithoutBase
      else .error .other
    join := fun u s => if u = urlAx ∧ s = "/rel" then some urlAy else none
    response := fun hop _ =>
      if hop = 0 then .ok (301, [("location", HeaderValue.ofString "/rel")], 0)
      else .ok (200, [], 0) }

/-- Environment whose every response is a redirect with no Location header. -/
def envNoLocation : Env :=
  { envBase with response := fun _ _ => .ok (302, [], 0) }

/-- Environment whose every response is a redirect whose Location bytes are
not visible ASCII. -/
def envBadLocation : Env :=
  { envBase with response := fun _ _ => .ok (302, [("location", [200])], 0) }

/-- Environment that parses exactly one base URL text. -/
def envParseA : Env :=
  { envBase with parse := fun s => if s = "http://a/" then .ok urlA else .error .other }

/-! Helper lemmas about `write_request`. -/

theorem writeRequest_fst (req : Request) (url : Url) :
    (writeRequest req url).1 = { req with headers := forcedHeaders req.headers url } := by
  rcases h : url.domain with _ | d <;> simp [writeRequest, forcedHeaders, h]

theorem writeRequest_redirect (req : Request) (url : Url) :
    (writeRequest req url).1.redirect = req.redirect := by
  rw [writeRequest_fst]

theorem writeRequest_default_encoding (req : Request) (url : Url) :
    (writeRequest req url).1.default_encoding = req.default_encoding := by
  rw [writeRequest_fst]

theorem writeRequest_headers (req : Request) (url : Url) :
    (writeRequest req url).1.headers = forcedHeaders req.headers url := by
  rw [writeRequest_fst]

theorem foldl_render (l : HeaderMap) (acc : String) :
    l.foldl (fun acc kv => acc ++ kv.1 ++ ": " ++ renderValue kv.2 ++ "\r\n") acc
      = acc ++ renderHeaders l := by
  induction l generalizing acc with
  | nil => simp [renderHeaders]
  | cons kv rest ih =>
    simp only [List.foldl_cons, renderHeaders, ih]
    simp [String.append_assoc]

theorem writeRequest_snd (req : Request) (url : Url) :
    (writeRequest req url).2
      = requestLine req url ++ renderHeaders (forcedHeaders req.headers url) ++ "\r\n" := by
  rcases hq : url.query with _ | q <;> rcases hd : url.domain with _ | d <;>
    simp only [writeRequest, hq, hd] <;> rw [foldl_render] <;>
    simp [requestLine, queryPart, forcedHeaders, hq, hd, String.append_assoc]

/-! Helper lemmas about the header map. -/

theorem find?_filter_congr {p q : String × HeaderValue → Bool} (l : HeaderMap)
    (hpq : ∀ kv, p kv = true → q kv = true) :
    (l.filter q).find? p = l.find? p := by
  induction l with
  | nil => rfl
  | cons kv rest ih =>
    by_cases hp : p kv = true
    · have hq := hpq kv hp
      simp [List.filter_cons, hq, List.find?_cons, hp, ih]
    · by_cases hq : q kv = true <;>
        simp [List.filter_cons, hq, List.find?_cons, hp, ih]

theorem find?_filter_ne (l : HeaderMap) (n : String) :
    (l.filter (fun kv => kv.1 != n)).find? (fun kv => kv.1 == n) = none := by
  induction l with
  | nil => rfl
  | cons kv rest ih =>
    by_cases h : kv.1 = n <;> simp [List.filter_cons, List.find?_cons, h, ih]

theorem headerGet_headerInsert_self (m : HeaderMap) (n : String) (v : HeaderValue) :
    headerGet (headerInsert m n v) n = some v := by
  unfold headerGet headerInsert
  rw [List.find?_append, find?_filter_ne]
  simp [List.find?_cons]

theorem headerGet_headerInsert_ne (m : HeaderMap) (n n' : String) (v : HeaderValue)
    (h : lowerName n ≠ lowerName n') :
    headerGet (headerInsert m n v) n' = headerGet m n' := by
  unfold headerGet headerInsert
  rw [List.find?_append]
  rw [find?_filter_congr m (p := fun kv => kv.1 == lowerName n')
    (q := fun kv => kv.1 != lowerName n)]
  · cases hm : m.find? (fun kv => kv.1 == lowerName n') with
    | none => simp [List.find?_cons, h]
    | some kv => simp
  · intro kv hkv
    simp only [beq_iff_eq] at hkv
    simp [hkv, h.symm]

theorem headerGet_mem {m : HeaderMap} {n : String} {v : HeaderValue}
    (h : headerGet m n = some v) : (lowerName n, v) ∈ m := by
  unfold headerGet at h
  cases hf : m.find? (fun kv => kv.1 == lowerName n) with
  | none => rw [hf] at h; cases h
  | some kv =>
    rw [hf] at h
    have hmem := List.mem_of_find?_eq_some hf
    have hp := List.find?_some hf
    simp only [beq_iff_eq] at hp
    simp at h
    have : kv = (lowerName n, v) := by
      cases kv; simp_all
    rwa [this] at hmem

theorem renderHeaders_mem {m : HeaderMap} {n : String} {v : HeaderValue} (h : (n, v) ∈ m) :
    ∃ pre post,
      renderHeaders m = pre ++ (n ++ ": " ++ renderValue v ++ "\r\n") ++ post := by
  induction m with
  | nil => cases h
  | cons kv rest ih =>
    rcases List.mem_cons.1 h with h | h
    · refine ⟨"", renderHeaders rest, ?_⟩
      subst h
      simp [renderHeaders, String.append_assoc]
    · obtain ⟨pre, post, hp⟩ := ih h
      refine ⟨kv.1 ++ ": " ++ renderValue kv.2 ++ "\r\n" ++ pre, post, ?_⟩
      simp [renderHeaders, hp, String.append_assoc]

theorem renderValue_ofString (s : String) :
    renderValue (HeaderValue.ofString s) = s := by
  unfold renderValue HeaderValue.ofString
  rw [List.map_map]
  have : (Char.ofNat ∘ Char.toNat) = id := funext fun c => Char.ofNat_toNat c
  simp [this]

/-! One-step unfolding lemmas for the redirect loop, one per exit of the loop
body plus the recursive redirect case. -/

theorem sendLoop_connect_error {env : Env} {url : Url} {hop : Nat} {e : HttpError}
    (fuel : Nat) (req : Request)
    (hc : Request.connect env hop url = .error e) :
    sendLoop env (fuel+1) req url hop = (.failed e, 1, []) := by
  simp only [sendLoop, hc]

theorem sendLoop_response_error {env : Env} {url : Url} {hop : Nat} {req : Request}
    {sock : MaybeTls} {e : HttpError} (fuel : Nat)
    (hc : Request.connect env hop url = .ok sock)
    (hr : env.response hop (writeRequest req url).1.default_encoding = .error e) :
    sendLoop env (fuel+1) req url hop = (.failed e, 1, [(writeRequest req url).2]) := by
  simp only [sendLoop, hc, hr]

theorem sendLoop_terminal {env : Env} {url : Url} {hop : Nat} {req : Request}
    {sock : MaybeTls} {status : Nat} {headers : HeaderMap} {resp : Nat} (fuel : Nat)
    (hc : Request.connect env hop url = .ok sock)
    (hr : env.response hop (writeRequest req url).1.default_encoding
      = .ok (status, headers, resp))
    (hd : (!(writeRequest req url).1.redirect || !isRedirection status) = true) :
    sendLoop env (fuel+1) req url hop
      = (.done status headers resp, 1, [(writeRequest req url).2]) := by
  simp only [sendLoop, hc, hr, hd, if_true]

theorem sendLoop_no_location {env : Env} {url : Url} {hop : Nat} {req : Request}
    {sock : MaybeTls} {status : Nat} {headers : HeaderMap} {resp : Nat} (fuel : Nat)
    (hc : Request.connect env hop url = .ok sock)
    (hr : env.response hop (writeRequest req url).1.default_encoding
      = .ok (status, headers, resp))
    (hd : (!(writeRequest req url).1.redirect || !isRedirection status) = false)
    (hl : headerGet headers "location" = none) :
    sendLoop env (fuel+1) req url hop
      = (.failed (.InvalidResponse "redirect has no location header"), 1,
         [(writeRequest req url).2]) := by
  simp only [sendLoop, hc, hr, hd, hl, Bool.false_eq_true, if_false]

theorem sendLoop_location_to_str_error {env : Env} {url : Url} {hop : Nat}
    {req : Request} {sock : MaybeTls} {status : Nat} {headers : HeaderMap}
    {resp : Nat} {locv : HeaderValue} (fuel : Nat)
    (hc : Request.connect env hop url = .ok sock)
    (hr : env.response hop (writeRequest req url).1.default_encoding
      = .ok (status, headers, resp))
    (hd : (!(writeRequest req url).1.redirect || !isRedirection status) = false)
    (hl : headerGet headers "location" = some locv)
    (hs : headerValueToStr locv = none) :
    sendLoop env (fuel+1) req url hop
      = (.failed (.InvalidResponse "location to str error"), 1,
         [(writeRequest req url).2]) := by
  simp only [sendLoop, hc, hr, hd, hl, hs, Bool.false_eq_true, if_false]

theorem sendLoop_resolve_error {env : Env} {url : Url} {hop : Nat}
    {req : Request} {sock : MaybeTls} {status : Nat} {headers : HeaderMap}
    {resp : Nat} {locv : HeaderValue} {location : String} {e : HttpError} (fuel : Nat)
    (hc : Request.connect env hop url = .ok sock)
    (hr : env.response hop (writeRequest req url).1.default_encoding
      = .ok (status, headers, resp))
    (hd : (!(writeRequest req url).1.redirect || !isRedirection status) = false)
    (hl : headerGet headers "location" = some locv)
    (hs : headerValueToStr locv = some location)
    (hb : base_redirect_url env location url = .error e) :
    sendLoop env (fuel+1) req url hop = (.failed e, 1, [(writeRequest req url).2]) := by
  simp only [sendLoop, hc, hr, hd, hl, hs, hb, Bool.false_eq_true, if_false]

theorem sendLoop_redirect_step {env : Env} {url : Url} {hop : Nat}
    {req : Request} {sock : MaybeTls} {status : Nat} {headers : HeaderMap}
    {resp : Nat} {locv : HeaderValue} {location : String} {new_url : Url} (fuel : Nat)
    (hc : Request.connect env hop url = .ok sock)
    (hr : env.response hop (writeRequest req url).1.default_encoding
      = .ok (status, headers, resp))
    (hd : (!(writeRequest req url).1.redirect || !isRedirection status) = false)
    (hl : headerGet headers "location" = some locv)
    (hs : headerValueToStr locv = some location)
    (hb : base_redirect_url env location url = .ok new_url) :
    sendLoop env (fuel+1) req url hop
      = ((sendLoop env fuel (writeRequest req url).1 new_url (hop+1)).1,
         (sendLoop env fuel (writeRequest req url).1 new_url (hop+1)).2.1 + 1,
         (writeRequest req url).2
           :: (sendLoop env fuel (writeRequest req url).1 new_url (hop+1)).2.2) := by
  simp only [sendLoop, hc, hr, hd, hl, hs, hb, Bool.false_eq_true, if_false]

/-- Construction half of the loop characterization: after an uninterrupted
chain of `k` redirect hops, a hop whose response is terminal makes the loop
return that hop's parser triple, having made exactly `k + 1` connections and
flushed exactly `k + 1` serialized requests. -/
theorem sendLoop_done_of_reaches {env : Env} :
    ∀ {req url hop k req2 url2}, Reaches env req url hop k req2 url2 →
    ∀ {sock status headers resp},
      Request.connect env (hop+k) url2 = .ok sock →
      env.response (hop+k) (writeRequest req2 url2).1.default_encoding
        = .ok (status, headers, resp) →
      (!(writeRequest req2 url2).1.redirect || !isRedirection status) = true →
      ∀ fuel, k < fuel →
        (sendLoop env fuel req url hop).1 = .done status headers resp ∧
        (sendLoop env fuel req url hop).2.1 = k + 1 ∧
        (sendLoop env fuel req url hop).2.2.length = k + 1 := by
  intro req url hop k req2 url2 hreach
  induction hreach with
  | refl req url hop =>
    intro sock status headers resp hc hr hd fuel hf
    obtain ⟨fuel, rfl⟩ : ∃ f, fuel = f + 1 := ⟨fuel - 1, by omega⟩
    rw [Nat.add_zero] at hc hr
    rw [sendLoop_terminal fuel hc hr hd]
    simp
  | @step req url hop k req2 url2 sock0 status0 headers0 resp0 locv0 location0 new_url
      hc0 hr0 hd0 hl0 hs0 hb0 _hrec ih =>
    intro sock status headers resp hc hr hd fuel hf
    obtain ⟨fuel, rfl⟩ : ∃ f, fuel = f + 1 := ⟨fuel - 1, by omega⟩
    rw [sendLoop_redirect_step fuel hc0 hr0 hd0 hl0 hs0 hb0]
    have e : hop + (k+1) = (hop+1) + k := by omega
    rw [e] at hc hr
    obtain ⟨h1, h2, h3⟩ := ih hc hr hd fuel (by omega)
    refine ⟨h1, ?_, ?_⟩ <;> simp [h2, h3]

/-- Inversion half of the loop characterization: if the loop returns a
triple, some uninterrupted chain of `k` redirect hops led to a hop whose
connection succeeded, whose response is that exact triple, and at which
redirect-following was off or the status was not a redirection. -/
theorem reaches_of_sendLoop_done {env : Env} :
    ∀ fuel {req url hop status headers resp},
      (sendLoop env fuel req url hop).1 = .done status headers resp →
      ∃ k req2 url2 sock, k < fuel ∧ Reaches env req url hop k req2 url2 ∧
        Request.connect env (hop+k) url2 = .ok sock ∧
        env.response (hop+k) (writeRequest req2 url2).1.default_encoding
          = .ok (status, headers, resp) ∧
        (!(writeRequest req2 url2).1.redirect || !isRedirection status) = true := by
  intro fuel
  induction fuel with
  | zero =>
    intro req url hop status headers resp h
    simp [sendLoop] at h
  | succ fuel ih =>
    intro req url hop status headers resp h
    rcases hc : Request.connect env hop url with e | sock
    · rw [sendLoop_connect_error fuel req hc] at h
      simp at h
    · rcases hr : env.response hop (writeRequest req url).1.default_encoding with e | ⟨s', hd', b'⟩
      · rw [sendLoop_response_error fuel hc hr] at h
        simp at h
      · rcases hdec : (!(writeRequest req url).1.redirect || !isRedirection s') with _ | _
        · rcases hl : headerGet hd' "location" with _ | locv
          · rw [sendLoop_no_location fuel hc hr hdec hl] at h
            simp at h
          · rcases hs : headerValueToStr locv with _ | location
            · rw [sendLoop_location_to_str_error fuel hc hr hdec hl hs] at h
              simp at h
            · rcases hb : base_redirect_url env location url with e | new_url
              · rw [sendLoop_resolve_error fuel hc hr hdec hl hs hb] at h
                simp at h
              · rw [sendLoop_redirect_step fuel hc hr hdec hl hs hb] at h
                simp only at h
                obtain ⟨k, req2, url2, sock2, hk, hreach, hc2, hr2, hd2⟩ := ih h
                refine ⟨k+1, req2, url2, sock2, by omega,
                  Reaches.step hc hr hdec hl hs hb hreach, ?_, ?_, hd2⟩ <;>
                  · have e : hop + (k+1) = (hop+1) + k := by omega
                    rw [e]
                    assumption
        · rw [sendLoop_terminal fuel hc hr hdec] at h
          simp only at h
          obtain ⟨rfl, rfl, rfl⟩ : s' = status ∧ hd' = headers ∧ b' = resp := by
            cases h; exact ⟨rfl, rfl, rfl⟩
          exact ⟨0, req, url, sock, by omega, Reaches.refl req url hop,
            by rwa [Nat.add_zero], by rwa [Nat.add_zero], hdec⟩

/-- C10: for every base URL text the URL service parses successfully,
`Request::new` yields a request whose method is GET, whose header map is
empty, whose redirect-following flag is true — so a fresh request follows
redirects by default — and whose default encoding is absent. -/
theorem new_defaults (env : Env) (s : String) (u : Url) (h : env.parse s = .ok u) :
    Request.new env s
      = .ok { url := u, method := "GET", headers := [], redirect := true,
              default_encoding := none } := by
  unfold Request.new
  rw [h]

/-- Witness for C10 at the concrete base URL text of `envParseA`. -/
theorem new_defaults_witness :
    envParseA.parse "http://a/" = .ok urlA ∧
    Request.new envParseA "http://a/"
      = .ok { url := urlA, method := "GET", headers := [], redirect := true,
              default_encoding := none } :=
  ⟨rfl, new_defaults envParseA "http://a/" urlA rfl⟩

/-- C8 counterexample: at an unparseable base URL the constructor panics with
"invalid url", aborting the whole process; it does not return an error value
to the caller. -/
theorem new_invalid_url_cex :
    Request.new envBase "not a url" = .panicked "invalid url" := rfl

/-- C8 amended: for every input text the URL service cannot parse, `new`
aborts the process (panicking with "invalid url") instead of returning a
constructible error to the caller. -/
theorem new_invalid_url_aborts (env : Env) (s : String) (e : UrlParseError)
    (h : env.parse s = .error e) :
    Request.new env s = .panicked "invalid url" := by
  unfold Request.new
  rw [h]

/-- Witness for C8's amended theorem at a concrete unparseable text. -/
theorem new_invalid_url_aborts_witness :
    envBase.parse "%" = .error .other ∧
    Request.new envBase "%" = .panicked "invalid url" :=
  ⟨rfl, new_invalid_url_aborts envBase "%" .other rfl⟩

/-- C5 counterexample: the connector's reason strings are "url has no host",
"url has no port" and "url contains unsupported scheme", not the claimed
"no host", "no port" and "unsupported scheme". -/
theorem connect_message_cex :
    Request.connect envBase 0 urlNoHost = .error (.InvalidUrl "url has no host") ∧
    HttpError.InvalidUrl "url has no host" ≠ HttpError.InvalidUrl "no host" ∧
    Request.connect envBase 0 urlNoPort = .error (.InvalidUrl "url has no port") ∧
    HttpError.InvalidUrl "url has no port" ≠ HttpError.InvalidUrl "no port" ∧
    Request.connect envBase 0 urlFtp
      = .error (.InvalidUrl "url contains unsupported scheme") ∧
    HttpError.InvalidUrl "url contains unsupported scheme"
      ≠ HttpError.InvalidUrl "unsupported scheme" := by
  refine ⟨rfl, ?_, rfl, ?_, rfl, ?_⟩ <;> decide

/-- C5 amended: a URL without a host fails with the invalid-URL error
"url has no host" whatever its scheme; with a host but neither an explicit
nor a scheme-default port it fails with "url has no port" whatever its
scheme — so both checks precede the scheme dispatch; otherwise scheme http
opens a plaintext stream and scheme https an encrypted stream to the same
host and port, and any other scheme fails with
"url contains unsupported scheme". -/
theorem connect_dispatch :
    (∀ (env : Env) (hop : Nat) (url : Url), url.host = none →
      Request.connect env hop url = .error (.InvalidUrl "url has no host")) ∧
    (∀ (env : Env) (hop : Nat) (url : Url) (h : String), url.host = some h →
      url.port_or_known_default = none →
      Request.connect env hop url = .error (.InvalidUrl "url has no port")) ∧
    (∀ (env : Env) (hop : Nat) (url : Url) (h : String) (p : Nat), url.host = some h →
      url.port_or_known_default = some p → url.scheme = "http" →
      env.netConnect hop h p = none →
      Request.connect env hop url = .ok (.plain h p)) ∧
    (∀ (env : Env) (hop : Nat) (url : Url) (h : String) (p : Nat), url.host = some h →
      url.port_or_known_default = some p → url.scheme = "https" →
      env.netConnectTls hop h p = none →
      Request.connect env hop url = .ok (.tls h p)) ∧
    (∀ (env : Env) (hop : Nat) (url : Url) (h : String) (p : Nat), url.host = some h →
      url.port_or_known_default = some p → url.scheme ≠ "http" → url.scheme ≠ "https" →
      Request.connect env hop url
        = .error (.InvalidUrl "url contains unsupported scheme")) := by
  refine ⟨?_, ?_, ?_, ?_, ?_⟩
  · intro env hop url hh
    unfold Request.connect
    rw [hh]
  · intro env hop url h hh hp
    unfold Request.connect
    rw [hh, hp]
  · intro env hop url h p hh hp hs hn
    unfold Request.connect
    rw [hh, hp, hs]
    simp [hn]
  · intro env hop url h p hh hp hs hn
    unfold Request.connect
    rw [hh, hp, hs]
    simp [hn]
  · intro env hop url h p hh hp hs1 hs2
    unfold Request.connect
    simp only [hh, hp]

/-- Witness for C5's amended theorem: one concrete URL per branch. -/
theorem connect_dispatch_witness :
    Request.connect envBase 0 urlNoHost = .error (.InvalidUrl "url has no host") ∧
    Request.connect envBase 1 urlNoPort = .error (.InvalidUrl "url has no port") ∧
    Request.connect envBase 2 urlA = .ok (.plain "a" 80) ∧
    Request.connect envBase 3 urlHttpsB = .ok (.tls "b" 8443) ∧
    Request.connect envBase 4 urlFtp
      = .error (.InvalidUrl "url contains unsupported scheme") :=
  ⟨connect_dispatch.1 envBase 0 urlNoHost rfl,
   connect_dispatch.2.1 envBase 1 urlNoPort "a" rfl rfl,
   connect_dispatch.2.2.1 envBase 2 urlA "a" 80 rfl rfl rfl rfl,
   connect_dispatch.2.2.2.1 envBase 3 urlHttpsB "b" 8443 rfl rfl rfl rfl,
   connect_dispatch.2.2.2.2 envBase 4 urlFtp "a" 21 rfl rfl (by decide) (by decide)⟩

/-- C4: at a 3xx hop with redirects enabled, a missing Location header makes
the loop fail with "redirect has no location header" after exactly one
connection attempt for that hop and no further hop, and a Location value that
does not decode to text makes it fail with "location to str error". -/
theorem redirect_location_failures :
    (∀ (env : Env) (fuel hop : Nat) (req : Request) (url : Url) (sock : MaybeTls)
        (status : Nat) (headers : HeaderMap) (resp : Nat),
      Request.connect env hop url = .ok sock →
      env.response hop (writeRequest req url).1.default_encoding
        = .ok (status, headers, resp) →
      req.redirect = true → isRedirection status = true →
      headerGet headers "location" = none →
      sendLoop env (fuel+1) req url hop
        = (.failed (.InvalidResponse "redirect has no location header"), 1,
           [(writeRequest req url).2])) ∧
    (∀ (env : Env) (fuel hop : Nat) (req : Request) (url : Url) (sock : MaybeTls)
        (status : Nat) (headers : HeaderMap) (resp : Nat) (locv : HeaderValue),
      Request.connect env hop url = .ok sock →
      env.response hop (writeRequest req url).1.default_encoding
        = .ok (status, headers, resp) →
      req.redirect = true → isRedirection status = true →
      headerGet headers "location" = some locv →
      headerValueToStr locv = none →
      sendLoop env (fuel+1) req url hop
        = (.failed (.InvalidResponse "location to str error"), 1,
           [(writeRequest req url).2])) := by
  constructor
  · intro env fuel hop req url sock status headers resp hc hr hredir hst hl
    have hd : (!(writeRequest req url).1.redirect || !isRedirection status) = false := by
      rw [writeRequest_redirect, hredir, hst]
      rfl
    exact sendLoop_no_location fuel hc hr hd hl
  · intro env fuel hop req url sock status headers resp locv hc hr hredir hst hl hs
    have hd : (!(writeRequest req url).1.redirect || !isRedirection status) = false := by
      rw [writeRequest_redirect, hredir, hst]
      rfl
    exact sendLoop_location_to_str_error fuel hc hr hd hl hs

/-- Witness for C4: a first-hop 302 with no Location, and one whose Location
bytes are not visible ASCII. -/
theorem redirect_location_failures_witness :
    Request.send envNoLocation reqA 1
      = (.failed (.InvalidResponse "redirect has no location header"), 1,
         [(writeRequest reqA urlA).2]) ∧
    Request.send envBadLocation reqA 1
      = (.failed (.InvalidResponse "location to str error"), 1,
         [(writeRequest reqA urlA).2]) :=
  ⟨redirect_location_failures.1 envNoLocation 0 0 reqA urlA (.plain "a" 80) 302 [] 0
      rfl rfl rfl (by decide) rfl,
   redirect_location_failures.2 envBadLocation 0 0 reqA urlA (.plain "a" 80) 302
      [("location", [200])] 0 [200] rfl rfl rfl (by decide) rfl (by decide)⟩

/-- C3: the redirect target is the absolute parse of the Location value when
that parse succeeds; exactly when the parse fails as relative-without-base,
the value is joined against the URL of the hop that produced the redirect
(the loop passes its current URL, not the original request URL), a join
failure yielding "cannot join location with new url"; any other parse failure
yields "invalid redirection url". -/
theorem base_redirect_url_resolution :
    (∀ (env : Env) (loc : String) (prev u : Url), env.parse loc = .ok u →
      base_redirect_url env loc prev = .ok u) ∧
    (∀ (env : Env) (loc : String) (prev u : Url),
      env.parse loc = .error .relativeUrlWithoutBase → env.join prev loc = some u →
      base_redirect_url env loc prev = .ok u) ∧
    (∀ (env : Env) (loc : String) (prev : Url),
      env.parse loc = .error .relativeUrlWithoutBase → env.join prev loc = none →
      base_redirect_url env loc prev
        = .error (.InvalidUrl "cannot join location with new url")) ∧
    (∀ (env : Env) (loc : String) (prev : Url), env.parse loc = .error .other →
      base_redirect_url env loc prev = .error (.InvalidUrl "invalid redirection url")) ∧
    (∀ (env : Env) (fuel hop : Nat) (req : Request) (url : Url) (sock : MaybeTls)
        (status : Nat) (headers : HeaderMap) (resp : Nat) (locv : HeaderValue)
        (location : String),
      Request.connect env hop url = .ok sock →
      env.response hop (writeRequest req url).1.default_encoding
        = .ok (status, headers, resp) →
      (!(writeRequest req url).1.redirect || !isRedirection status) = false →
      headerGet headers "location" = some locv →
      headerValueToStr locv = some location →
      sendLoop env (fuel+1) req url hop
        = (match base_redirect_url env location url with
           | .error e => (.failed e, 1, [(writeRequest req url).2])
           | .ok new_url =>
             ((sendLoop env fuel (writeRequest req url).1 new_url (hop+1)).1,
              (sendLoop env fuel (writeRequest req url).1 new_url (hop+1)).2.1 + 1,
              (writeRequest req url).2
                :: (sendLoop env fuel (writeRequest req url).1 new_url (hop+1)).2.2))) := by
  refine ⟨?_, ?_, ?_, ?_, ?_⟩
  · intro env loc prev u h
    unfold base_redirect_url
    rw [h]
  · intro env loc prev u h hj
    unfold base_redirect_url
    rw [h, hj]
  · intro env loc prev h hj
    unfold base_redirect_url
    rw [h, hj]
  · intro env loc prev h
    unfold base_redirect_url
    rw [h]
  · intro env fuel hop req url sock status headers resp locv location hc hr hd hl hs
    rcases hb : base_redirect_url env location url with e | new_url
    · rw [sendLoop_resolve_error fuel hc hr hd hl hs hb]
    · rw [sendLoop_redirect_step fuel hc hr hd hl hs hb]

/-- Witness for C3: all three resolution outcomes in `envResolve`, and the
loop resolving hop 0's relative Location against its current URL `urlAx`. -/
theorem base_redirect_url_resolution_witness :
    base_redirect_url envResolve "http://b/" urlAx = .ok urlB ∧
    base_redirect_url envResolve "/rel" urlAx = .ok urlAy ∧
    base_redirect_url envResolve "/rel" urlB
      = .error (.InvalidUrl "cannot join location with new url") ∧
    base_redirect_url envResolve "%" urlAx
      = .error (.InvalidUrl "invalid redirection url") ∧
    sendLoop envResolve 2 reqA urlAx 0
      = (match base_redirect_url envResolve "/rel" urlAx with
         | .error e => (.failed e, 1, [(writeRequest reqA urlAx).2])
         | .ok new_url =>
           ((sendLoop envResolve 1 (writeRequest reqA urlAx).1 new_url 1).1,
            (sendLoop envResolve 1 (writeRequest reqA urlAx).1 new_url 1).2.1 + 1,
            (writeRequest reqA urlAx).2
              :: (sendLoop envResolve 1 (writeRequest reqA urlAx).1 new_url 1).2.2)) :=
  ⟨base_redirect_url_resolution.1 envResolve "http://b/" urlAx urlB rfl,
   base_redirect_url_resolution.2.1 envResolve "/rel" urlAx urlAy rfl (by decide),
   base_redirect_url_resolution.2.2.1 envResolve "/rel" urlB rfl (by decide),
   base_redirect_url_resolution.2.2.2.1 envResolve "%" urlAx rfl,
   base_redirect_url_resolution.2.2.2.2 envResolve 1 0 reqA urlAx (.plain "a" 80)
     301 [("location", HeaderValue.ofString "/rel")] 0 (HeaderValue.ofString "/rel")
     "/rel" rfl rfl (by decide) rfl (by decide)⟩

/-- C1: the loop returns successfully exactly when an uninterrupted chain of
redirect hops reaches a hop at which redirect-following is off or the
response status is not in the 3xx class; the returned triple is that hop's
parser triple unmodified and — the loop being a function of its inputs — this
is the only successful exit. In particular, when the very first response is
already terminal, exactly one connection is made and exactly that parser
triple is returned. -/
theorem send_done_iff_terminal_hop :
    (∀ (env : Env) (req : Request) (fuel status : Nat) (headers : HeaderMap) (resp : Nat),
      (Request.send env req fuel).1 = .done status headers resp ↔
        ∃ k req2 url2 sock, k < fuel ∧ Reaches env req req.url 0 k req2 url2 ∧
          Request.connect env k url2 = .ok sock ∧
          env.response k (writeRequest req2 url2).1.default_encoding
            = .ok (status, headers, resp) ∧
          (!(writeRequest req2 url2).1.redirect || !isRedirection status) = true) ∧
    (∀ (env : Env) (req : Request) (fuel : Nat) (sock : MaybeTls) (status : Nat)
        (headers : HeaderMap) (resp : Nat),
      Request.connect env 0 req.url = .ok sock →
      env.response 0 req.default_encoding = .ok (status, headers, resp) →
      (req.redirect = false ∨ isRedirection status = false) →
      Request.send env req (fuel+1)
        = (.done status headers resp, 1, [(writeRequest req req.url).2])) := by
  constructor
  · intro env req fuel status headers resp
    constructor
    · intro h
      obtain ⟨k, req2, url2, sock, hk, hreach, hc, hr, hd⟩ :=
        reaches_of_sendLoop_done fuel h
      exact ⟨k, req2, url2, sock, hk, hreach, by rwa [Nat.zero_add] at hc,
        by rwa [Nat.zero_add] at hr, hd⟩
    · rintro ⟨k, req2, url2, sock, hk, hreach, hc, hr, hd⟩
      exact (sendLoop_done_of_reaches hreach (by rwa [Nat.zero_add])
        (by rwa [Nat.zero_add]) hd fuel hk).1
  · intro env req fuel sock status headers resp hc hr hd
    have hd2 : (!(writeRequest req req.url).1.redirect || !isRedirection status) = true := by
      rw [writeRequest_redirect]
      rcases hd with hd | hd <;> simp [hd]
    have hr2 : env.response 0 (writeRequest req req.url).1.default_encoding
        = .ok (status, headers, resp) := by
      rwa [writeRequest_default_encoding]
    exact sendLoop_terminal fuel hc hr2 hd2

/-- Witness for C1: a first response of 200 is returned as-is after one
connection. -/
theorem send_done_iff_terminal_hop_witness :
    Request.send envBase reqA 1
      = (.done 200 [] 0, 1, [(writeRequest reqA reqA.url).2]) :=
  send_done_iff_terminal_hop.2 envBase reqA 0 (.plain "a" 80) 200 [] 0 rfl rfl
    (Or.inr (by decide))

/-- C2: N successful redirect hops followed by a terminal hop make `send`
perform exactly N+1 connections — serializing one fresh request per hop, with
no stream carried across hops — and return the terminal hop's response. -/
theorem send_chain_connections (env : Env) (req : Request) (n : Nat)
    (req2 : Request) (url2 : Url) (sock : MaybeTls) (status : Nat)
    (headers : HeaderMap) (resp : Nat) (fuel : Nat)
    (hreach : Reaches env req req.url 0 n req2 url2)
    (hc : Request.connect env n url2 = .ok sock)
    (hr : env.response n (writeRequest req2 url2).1.default_encoding
      = .ok (status, headers, resp))
    (hd : (!(writeRequest req2 url2).1.redirect || !isRedirection status) = true)
    (hf : n < fuel) :
    (Request.send env req fuel).1 = .done status headers resp ∧
    (Request.send env req fuel).2.1 = n + 1 ∧
    (Request.send env req fuel).2.2.length = n + 1 :=
  sendLoop_done_of_reaches hreach (by rwa [Nat.zero_add]) (by rwa [Nat.zero_add])
    hd fuel hf

/-- Witness for C2: the two-redirect chain of `envChain` ends in three
connections and the terminal 200. -/
theorem send_chain_connections_witness :
    (Request.send envChain reqA 3).1 = .done 200 [] 0 ∧
    (Request.send envChain reqA 3).2.1 = 3 ∧
    (Request.send envChain reqA 3).2.2.length = 3 := by
  have h1 : Reaches envChain (writeRequest (writeRequest reqA urlA).1 urlB).1 urlBy 2 0
      (writeRequest (writeRequest reqA urlA).1 urlB).1 urlBy := Reaches.refl _ _ _
  have h2 : Reaches envChain (writeRequest reqA urlA).1 urlB 1 1
      (writeRequest (writeRequest reqA urlA).1 urlB).1 urlBy :=
    Reaches.step rfl rfl (by decide) rfl rfl rfl h1
  have h3 : Reaches envChain reqA urlA 0 2
      (writeRequest (writeRequest reqA urlA).1 urlB).1 urlBy :=
    Reaches.step rfl rfl (by decide) rfl rfl rfl h2
  exact send_chain_connections envChain reqA 2 _ urlBy (.plain "b" 80) 200 [] 0 3
    h3 rfl rfl (by decide) (by omega)

/-- Auxiliary for C9: in `envCycle`, starting at either URL of the cycle on a
hop of matching parity, a redirect-following request exhausts all its fuel —
one connection per fuel unit — and never reaches a terminal outcome. -/
theorem sendLoop_cycle (fuel : Nat) :
    ∀ (hop : Nat) (req : Request), req.redirect = true →
      (sendLoop envCycle fuel req (if hop % 2 = 0 then urlA else urlB) hop).1 = .fuelOut ∧
      (sendLoop envCycle fuel req (if hop % 2 = 0 then urlA else urlB) hop).2.1 = fuel := by
  induction fuel with
  | zero => intro hop req _; exact ⟨rfl, rfl⟩
  | succ fuel ih =>
    intro hop req hredir
    by_cases hp : hop % 2 = 0
    · rw [if_pos hp]
      have hc : Request.connect envCycle hop urlA = .ok (.plain "a" 80) := rfl
      have hr : envCycle.response hop (writeRequest req urlA).1.default_encoding
          = .ok (302, [("location", HeaderValue.ofString "http://b/")], 0) := by
        show Except.ok (302, [("location", HeaderValue.ofString
          (if hop % 2 = 0 then "http://b/" else "http://a/"))], (0 : Nat)) = _
        rw [if_pos hp]
      have hd : (!(writeRequest req urlA).1.redirect || !isRedirection 302) = false := by
        rw [writeRequest_redirect, hredir]
        decide
      have hl : headerGet [("location", HeaderValue.ofString "http://b/")] "location"
          = some (HeaderValue.ofString "http://b/") := rfl
      have hs : headerValueToStr (HeaderValue.ofString "http://b/")
          = some "http://b/" := rfl
      have hb : base_redirect_url envCycle "http://b/" urlA = .ok urlB := rfl
      rw [sendLoop_redirect_step fuel hc hr hd hl hs hb]
      have hnext := ih (hop+1) (writeRequest req urlA).1
        (by rw [writeRequest_redirect]; exact hredir)
      rw [if_neg (by omega : ¬ (hop+1) % 2 = 0)] at hnext
      refine ⟨?_, ?_⟩ <;> simp [hnext.1, hnext.2]
    · rw [if_neg hp]
      have hc : Request.connect envCycle hop urlB = .ok (.plain "b" 80) := rfl
      have hr : envCycle.response hop (writeRequest req urlB).1.default_encoding
          = .ok (302, [("location", HeaderValue.ofString "http://a/")], 0) := by
        show Except.ok (302, [("location", HeaderValue.ofString
          (if hop % 2 = 0 then "http://b/" else "http://a/"))], (0 : Nat)) = _
        rw [if_neg hp]
      have hd : (!(writeRequest req urlB).1.redirect || !isRedirection 302) = false := by
        rw [writeRequest_redirect, hredir]
        decide
      have hl : headerGet [("location", HeaderValue.ofString "http://a/")] "location"
          = some (HeaderValue.ofString "http://a/") := rfl
      have hs : headerValueToStr (HeaderValue.ofString "http://a/")
          = some "http://a/" := rfl
      have hb : base_redirect_url envCycle "http://a/" urlB = .ok urlA := rfl
      rw [sendLoop_redirect_step fuel hc hr hd hl hs hb]
      have hnext := ih (hop+1) (writeRequest req urlB).1
        (by rw [writeRequest_redirect]; exact hredir)
      rw [if_pos (by omega : (hop+1) % 2 = 0)] at hnext
      refine ⟨?_, ?_⟩ <;> simp [hnext.1, hnext.2]

/-- C9: with the pair of URLs redirecting to each other and redirects
enabled, `send` never reaches a terminal outcome: every fuel bound N is fully
consumed, with exactly one connection per fuel unit, so the loop performs
more than N connections for every N and no redirect cap ever stops it. -/
theorem send_cycle_unbounded (fuel : Nat) (req : Request)
    (hredir : req.redirect = true) (hurl : req.url = urlA) :
    (Request.send envCycle req fuel).1 = .fuelOut ∧
    (Request.send envCycle req fuel).2.1 = fuel := by
  have h := sendLoop_cycle fuel 0 req hredir
  rw [if_pos (by norm_num : (0 : Nat) % 2 = 0)] at h
  unfold Request.send
  rw [hurl]
  exact h

/-- Witness for C9 at five units of fuel. -/
theorem send_cycle_unbounded_witness :
    (Request.send envCycle reqA 5).1 = .fuelOut ∧
    (Request.send envCycle reqA 5).2.1 = 5 :=
  send_cycle_unbounded 5 reqA rfl rfl

/-- C6 counterexample: with a present-but-empty query component the emitted
request line still contains the question mark, though the query is not
non-empty, contradicting the claimed iff. -/
theorem write_request_empty_query_cex :
    urlEmptyQuery.query = some "" ∧
    (writeRequest reqA urlEmptyQuery).2
      = "GET /x? HTTP/1.1\r\nconnection: close\r\nhost: a\r\n\r\n" ∧
    (writeRequest reqA urlEmptyQuery).2
      ≠ "GET /x HTTP/1.1\r\nconnection: close\r\nhost: a\r\n\r\n" := by
  refine ⟨rfl, ?_, ?_⟩ <;> decide

/-- C6 amended: the flushed bytes are exactly the request line — whose query
segment appears iff the URL has a query component, present even when empty —
followed by one name-colon-space-value-CRLF line per entry of the mutated
header map, which holds a forced connection-close overriding any caller
value and, when the URL has a domain, a forced host, followed by a
terminating CRLF. -/
theorem write_request_wire_format :
    (∀ (req : Request) (url : Url),
      (writeRequest req url).2
        = requestLine req url ++ renderHeaders (forcedHeaders req.headers url) ++ "\r\n") ∧
    (∀ (req : Request) (url : Url),
      (writeRequest req url).1.headers = forcedHeaders req.headers url) ∧
    (∀ (m : HeaderMap) (url : Url),
      headerGet (forcedHeaders m url) "connection"
        = some (HeaderValue.ofString "close")) ∧
    (∀ (m : HeaderMap) (url : Url) (d : String), url.domain = some d →
      headerGet (forcedHeaders m url) "host" = some (HeaderValue.ofString d)) ∧
    (∀ (req : Request) (url : Url) (q : String), url.query = some q →
      requestLine req url
        = req.method ++ " " ++ url.path ++ "?" ++ q ++ " " ++ "HTTP/1.1" ++ "\r\n") ∧
    (∀ (req : Request) (url : Url), url.query = none →
      requestLine req url
        = req.method ++ " " ++ url.path ++ " " ++ "HTTP/1.1" ++ "\r\n") := by
  refine ⟨writeRequest_snd, writeRequest_headers, ?_, ?_, ?_, ?_⟩
  · intro m url
    rcases hd : url.domain with _ | d <;> simp only [forcedHeaders, hd]
    · exact headerGet_headerInsert_self _ _ _
    · rw [headerGet_headerInsert_ne _ _ _ _ (by decide)]
      exact headerGet_headerInsert_self _ _ _
  · intro m url d hd
    simp only [forcedHeaders, hd]
    exact headerGet_headerInsert_self _ _ _
  · intro req url q hq
    simp [requestLine, queryPart, hq, String.append_assoc]
  · intro req url hq
    simp [requestLine, queryPart, hq, String.append_assoc]

/-- Witness for C6's amended theorem at concrete requests and URLs, including
a caller-set connection header that gets overridden. -/
theorem write_request_wire_format_witness :
    (writeRequest reqA urlA).2
      = requestLine reqA urlA ++ renderHeaders (forcedHeaders reqA.headers urlA) ++ "\r\n" ∧
    headerGet (forcedHeaders [("connection", HeaderValue.ofString "keep-alive")] urlA)
        "connection" = some (HeaderValue.ofString "close") ∧
    headerGet (forcedHeaders [] urlA) "host" = some (HeaderValue.ofString "a") ∧
    requestLine reqA urlEmptyQuery
      = "GET" ++ " " ++ "/x" ++ "?" ++ "" ++ " " ++ "HTTP/1.1" ++ "\r\n" ∧
    requestLine reqA urlA = "GET" ++ " " ++ "/" ++ " " ++ "HTTP/1.1" ++ "\r\n" :=
  ⟨write_request_wire_format.1 reqA urlA,
   write_request_wire_format.2.2.1 [("connection", HeaderValue.ofString "keep-alive")] urlA,
   write_request_wire_format.2.2.2.1 [] urlA "a" rfl,
   write_request_wire_format.2.2.2.2.1 reqA urlEmptyQuery "" rfl,
   write_request_wire_format.2.2.2.2.2 reqA urlA rfl⟩

/-- C7: the serializer's forced connection and host insertions mutate the
request's own header map, the loop threads that mutated request into later
hops, and a later hop whose URL has no domain re-sends the previous hop's
stale host header on the wire; the entry is only overwritten — never
cleared — when the current hop's URL has a domain. -/
theorem host_header_persists :
    ∀ (req : Request) (u1 u2 : Url) (d : String),
      u1.domain = some d → u2.domain = none →
      headerGet (writeRequest req u1).1.headers "host"
        = some (HeaderValue.ofString d) ∧
      headerGet (writeRequest (writeRequest req u1).1 u2).1.headers "host"
        = some (HeaderValue.ofString d) ∧
      (∃ pre post,
        (writeRequest (writeRequest req u1).1 u2).2
          = pre ++ ("host" ++ ": " ++ d ++ "\r\n") ++ post) ∧
      (∀ (u3 : Url) (d3 : String), u3.domain = some d3 →
        headerGet (writeRequest (writeRequest req u1).1 u3).1.headers "host"
          = some (HeaderValue.ofString d3)) := by
  intro req u1 u2 d hd1 hd2
  have h1 : headerGet (writeRequest req u1).1.headers "host"
      = some (HeaderValue.ofString d) := by
    rw [writeRequest_headers]
    simp only [forcedHeaders, hd1]
    exact headerGet_headerInsert_self _ _ _
  have h2 : headerGet (writeRequest (writeRequest req u1).1 u2).1.headers "host"
      = some (HeaderValue.ofString d) := by
    rw [writeRequest_headers]
    simp only [forcedHeaders, hd2]
    rw [headerGet_headerInsert_ne _ _ _ _ (by decide)]
    exact h1
  refine ⟨h1, h2, ?_, ?_⟩
  · have hmem : (lowerName "host", HeaderValue.ofString d)
        ∈ (writeRequest (writeRequest req u1).1 u2).1.headers := headerGet_mem h2
    have hlow : lowerName "host" = "host" := by decide
    rw [hlow] at hmem
    rw [writeRequest_headers] at hmem
    obtain ⟨pre, post, hsplit⟩ := renderHeaders_mem hmem
    rw [renderValue_ofString] at hsplit
    refine ⟨requestLine (writeRequest req u1).1 u2 ++ pre, post ++ "\r\n", ?_⟩
    rw [writeRequest_snd, hsplit]
    simp [String.append_assoc]
  · intro u3 d3 hd3
    rw [writeRequest_headers]
    simp only [forcedHeaders, hd3]
    exact headerGet_headerInsert_self _ _ _

/-- Witness for C7: host `a` is forced at hop 1, survives the domain-less
`urlIp` hop — appearing on that hop's wire — and is overwritten at a hop
whose URL has domain `b`. -/
theorem host_header_persists_witness :
    headerGet (writeRequest reqA urlA).1.headers "host"
      = some (HeaderValue.ofString "a") ∧
    headerGet (writeRequest (writeRequest reqA urlA).1 urlIp).1.headers "host"
      = some (HeaderValue.ofString "a") ∧
    (∃ pre post,
      (writeRequest (writeRequest reqA urlA).1 urlIp).2
        = pre ++ ("host" ++ ": " ++ "a" ++ "\r\n") ++ post) ∧
    headerGet (writeRequest (writeRequest reqA urlA).1 urlB).1.headers "host"
      = some (HeaderValue.ofString "b") := by
  obtain ⟨h1, h2, h3, h4⟩ := host_header_persists reqA urlA urlIp "a" rfl rfl
  exact ⟨h1, h2, h3, h4 urlB "b" rfl⟩

end TinyHttp
